import Mathlib

/-!
Verification of the FAQ chatbot core (`faq_chatbot.py`).

Python text is modelled as `List Char` (named `Str`), so that the string
operations the source uses (`lower`, `split`, `join`, membership,
substring tests) can be given faithful, structurally recursive Lean
definitions that the kernel can evaluate.

External collaborators (the nltk tokenizer `word_tokenize`, the nltk
stop-word list, the WordNet lemmatizer and the TextBlob polarity score)
are not part of the repository; they are carried as opaque function
fields of the `Chatbot` structure, and theorems that depend on their
behaviour state the assumed interface properties as explicit hypotheses.
The sklearn `TfidfVectorizer` is modelled from its documented behaviour:
its analyzer lowercases and extracts maximal alphanumeric-or-underscore
runs of length at least two, the vocabulary is the set of distinct such
tokens of the raw corpus, and each fitted document vector is the
term-count vector weighted by per-term idf factors (sklearn's smooth idf
`ln((1+n)/(1+df))+1`, always `>= 1`, is carried as the opaque positive
weight field `idf`).  Cosine similarity is invariant under the final L2
row normalisation, so vectors are kept unnormalised and the explicit
`l2normalize` map is applied where a claim compares stored vectors.

Similarity scores are nonnegative (all vector entries are nonnegative),
so the code's ranking and thresholding of cosine scores is represented
by the rational *squared* cosine `cosSq`; the lemmas
`cosineSim_eq_sqrt_cosSq` and `passes_iff` prove that this
representation induces exactly the same comparisons as the real-valued
cosine `cosineSim` the source computes.
-/

/-- Python `str`, modelled as a list of characters. -/
abbrev Str := List Char

/-- The apostrophe character (written via its code point). -/
def apos : Char := Char.ofNat 39

/-- Builds a string containing apostrophes by interspersing an
apostrophe between the given segments. -/
def strAp (segs : List String) : Str :=
  (List.intersperse [apos] (segs.map String.data)).flatten

/-- Python `str.lower()` (ASCII model, as in the catalog's texts). -/
def toLowerStr (s : Str) : Str := s.map Char.toLower

/-- Worker for `runsBy`: `cur` is the current (reversed) run of
characters satisfying `p`. -/
def runsByGo (p : Char → Bool) (cur : Str) : Str → List Str
  | [] => if cur.isEmpty then [] else [cur.reverse]
  | c :: cs =>
    if p c then runsByGo p (c :: cur) cs
    else if cur.isEmpty then runsByGo p [] cs
    else cur.reverse :: runsByGo p [] cs

/-- The maximal runs of characters satisfying `p`, in order; characters
not satisfying `p` act as separators and are dropped. -/
def runsBy (p : Char → Bool) (l : Str) : List Str := runsByGo p [] l

/-- Python `str.split()` with no argument: maximal runs of
non-whitespace characters. -/
def pySplit (s : Str) : List Str := runsBy (fun c => !c.isWhitespace) s

/-- Python `' '.join(...)`. -/
def joinSp : List Str → Str
  | [] => []
  | [t] => t
  | t :: t' :: ts => t ++ ' ' :: joinSp (t' :: ts)

/-- Python `str.isalnum()` (ASCII model): nonempty and every character
alphanumeric. -/
def isalnum (s : Str) : Bool := !s.isEmpty && s.all Char.isAlphanum

/-- Characters matched by `\w` in sklearn's default token pattern. -/
def isWordChar (c : Char) : Bool := c.isAlphanum || c == '_'

/-- The analyzer of sklearn's `TfidfVectorizer` with default settings
(documented behaviour): lowercase, then extract the tokens matching
`\w\w+`, i.e. the maximal word-character runs of length at least 2. -/
def sk_tokenize (s : Str) : List Str :=
  (runsBy isWordChar (toLowerStr s)).filter (fun t => 2 ≤ t.length)

/-- The `tech_terms` abbreviation map of `TechSupportChatbot.__init__`. -/
def tech_terms : List (Str × Str) :=
  [("wifi".data, "WiFi".data),
   ("bluetooth".data, "Bluetooth".data),
   ("cpu".data, "CPU".data),
   ("gpu".data, "GPU".data),
   ("lan".data, "LAN".data),
   ("ip".data, "IP".data),
   ("dns".data, "DNS".data),
   ("ssl".data, "SSL".data),
   ("url".data, "URL".data),
   ("vpn".data, "VPN".data)]

/-- One step of the `tech_terms` replacement loop in `preprocess_text`:
a word that is a key of `tech_terms` is replaced by its canonical form,
any other word passes through unchanged. -/
def techApply (w : Str) : Str := (tech_terms.lookup w).getD w

/-- The four tone categories of `analyze_sentiment`. -/
inductive Tone where
  | very_negative
  | negative
  | neutral
  | positive
deriving DecidableEq

/-- The `sentiment_responses` lead-in template sets of
`TechSupportChatbot.__init__`. -/
def sentiment_responses : Tone → List Str
  | .very_negative =>
    ["I understand your frustration. Let me help resolve this issue right away.".data,
     strAp ["I", "m sorry you", "re having such a difficult time. Let", "s fix this together."],
     strAp ["I apologize for the inconvenience. I", "ll do my best to help you."]]
  | .negative =>
    [strAp ["I", "ll help you sort this out."],
     strAp ["Let", "s work together to resolve this."],
     strAp ["I understand your concern. Here", "s what we can do:"]]
  | .neutral =>
    [strAp ["Here", "s what I found:"],
     "Let me help you with that.".data,
     "I can assist you with this.".data]
  | .positive =>
    [strAp ["Great question! Here", "s the information:"],
     strAp ["I", "m happy to help! Here", "s what you need:"],
     "Excellent! Let me show you how:".data]

/-- The chatbot state built by `TechSupportChatbot.__init__`.  The
catalog (`questions`, `answers`) and the external nltk/TextBlob
components are parameters; `idf` is the per-vocabulary-position inverse
document frequency weight the fitted vectorizer holds (sklearn's smooth
idf is `ln((1+n)/(1+df))+1 >= 1`; theorems that need it assume
positivity explicitly). -/
structure Chatbot where
  word_tokenize : Str → List Str
  stop_words : List Str
  lemmatize : Str → Str
  polarity : Str → ℚ
  questions : List Str
  answers : List Str
  idf : ℕ → ℚ

/-- `TechSupportChatbot.preprocess_text`: lowercase and
whitespace-split, apply `tech_terms`, re-join, tokenize the lowercased
text, drop stop words and non-alphanumeric tokens, lemmatize, and
re-join with single spaces. -/
def preprocess_text (bot : Chatbot) (text : Str) : Str :=
  let words := pySplit (toLowerStr text)
  let processed_words := words.map techApply
  let text1 := joinSp processed_words
  let tokens := bot.word_tokenize (toLowerStr text1)
  let tokens1 :=
    (tokens.filter (fun t => !(bot.stop_words.contains t) && isalnum t)).map bot.lemmatize
  joinSp tokens1

/-- `TechSupportChatbot.analyze_sentiment`: bucket the TextBlob
polarity of the raw text into one of four tone categories. -/
def analyze_sentiment (bot : Chatbot) (text : Str) : Tone :=
  let polarity := bot.polarity text
  if polarity ≤ -(1/2) then .very_negative
  else if polarity < 0 then .negative
  else if polarity ≤ 3/10 then .neutral
  else .positive

/-- The vocabulary derived by `fit_transform` on the raw catalog
questions: the distinct analyzer tokens, in first-seen order (sklearn
actually orders them alphabetically; no property below depends on the
coordinate order, only on consistency between build and query time). -/
def vocab (bot : Chatbot) : List Str := ((bot.questions.map sk_tokenize).flatten).dedup

/-- Number of occurrences of token `t` in a token list. -/
def tokCount (toks : List Str) (t : Str) : ℕ := (toks.filter (fun u => u == t)).length

/-- `vectorizer.transform` on one text (unnormalised): the term-count
vector over the fixed vocabulary, weighted by the fixed idf factors.
Tokens absent from the vocabulary contribute nothing. -/
def transform (voc : List Str) (idf : ℕ → ℚ) (text : Str) : List ℚ :=
  let toks := sk_tokenize text
  (List.range voc.length).map (fun j => (tokCount toks (voc.getD j []) : ℚ) * idf j)

/-- The catalog vectors stored at build time by
`self.question_vectors = self.vectorizer.fit_transform(self.questions)`:
note the source vectorizes the RAW question texts. -/
def question_vectors (bot : Chatbot) : List (List ℚ) :=
  bot.questions.map (transform (vocab bot) bot.idf)

/-- Whether construction succeeds: `TfidfVectorizer.fit_transform`
raises `ValueError` (empty vocabulary) exactly when the analyzer
extracts no token from any document (documented sklearn behaviour);
modelled as `none`. -/
def fit (questions : List Str) : Option (List Str) :=
  let voc := ((questions.map sk_tokenize).flatten).dedup
  if voc.isEmpty then none else some voc

/-- Dot product of two rational vectors (trailing entries of the longer
vector are ignored; all vectors compared below have equal length). -/
def dot (u v : List ℚ) : ℚ := (List.zipWith (· * ·) u v).sum

/-- Squared Euclidean norm. -/
def normSq (u : List ℚ) : ℚ := dot u u

/-- Squared cosine similarity, the rational representation of the
score used for ranking and thresholding (`0/0 = 0` gives score `0` for
a zero-magnitude vector, exactly sklearn's `cosine_similarity`). -/
def cosSq (u v : List ℚ) : ℚ := (dot u v) ^ 2 / (normSq u * normSq v)

/-- The real-valued cosine similarity the source computes
(`sklearn.metrics.pairwise.cosine_similarity`); division by a zero
norm yields `0`, never an error. -/
noncomputable def cosineSim (u v : List ℚ) : ℝ :=
  (dot u v : ℝ) / (Real.sqrt (normSq u) * Real.sqrt (normSq v))

/-- L2 row normalisation, applied by `TfidfVectorizer` to every fitted
or transformed vector (a zero vector stays zero). -/
noncomputable def l2normalize (v : List ℚ) : List ℝ :=
  v.map (fun x => (x : ℝ) / Real.sqrt ((normSq v : ℝ)))

/-- The threshold test `score >= threshold` of `get_response`, on the
squared-cosine representation: the cosine is nonnegative, so for a
positive threshold the test is equivalent to comparing squares
(`passes_iff` below proves the equivalence with the real test). -/
def passes (θ : ℚ) (scoreSq : ℚ) : Bool := decide (θ ≤ 0) || decide (θ ^ 2 ≤ scoreSq)

/-- Ascending comparison on positions `i j` of the score list, with
ties resolved by ascending position.  This is ONE admissible tie
resolution for `np.argsort`: numpy's contract only promises an
ascending permutation; its default `kind='quicksort'` (introsort) is
not stable, so the relative order of tied scores is unspecified in
general.  Below its ~16-element cutoff the introsort is a stable
insertion sort, which covers every concrete trace in this file (score
lists of at most 2 entries); theorems quantified over arbitrary score
lists rely only on the contract (see `rank_selects_top`), never on
this resolution. -/
def lexAsc (xs : List ℚ) (i j : ℕ) : Prop :=
  xs.getD i 0 < xs.getD j 0 ∨ (xs.getD i 0 = xs.getD j 0 ∧ i ≤ j)

instance lexAscDecidable (xs : List ℚ) : DecidableRel (lexAsc xs) := fun i j =>
  inferInstanceAs (Decidable (xs.getD i 0 < xs.getD j 0 ∨ (xs.getD i 0 = xs.getD j 0 ∧ i ≤ j)))

/-- `np.argsort(similarities)`: the positions of the score list in
some order along which scores ascend (a permutation of all positions).
This executable definition fixes the unspecified tie order by
ascending position so that `get_response` stays executable on the
concrete (≤ 2-entry, hence stable-regime) traces; `argsort_perm` and
`argsort_sorted_le` prove it satisfies np.argsort's documented
contract, which is all the general theorems use. -/
def argsort (xs : List ℚ) : List ℕ :=
  List.insertionSort (lexAsc xs) (List.range xs.length)

/-- Python slice `l[-n:]`: the last `n` elements — except that `n = 0`
yields `l[-0:] = l[0:]`, the WHOLE list. -/
def lastN (l : List ℕ) (n : ℕ) : List ℕ :=
  if n = 0 then l else l.drop (l.length - n)

/-- The ranking step of `get_response` (lines 334-347 of the source)
as a function of the index order `A` returned by `np.argsort`:
`A[-top_n:][::-1]`, then keep the indices whose score passes the
threshold, in that order.  Parameterising over `A` lets theorems
quantify over every index order the unstable numpy sort may return. -/
def rankWith (A : List ℕ) (simsSq : List ℚ) (top_n : ℕ) (θ : ℚ) : List ℕ :=
  ((lastN A top_n).reverse).filter (fun i => passes θ (simsSq.getD i 0))

/-- The ranking step of `get_response` with the executable `argsort`
resolution plugged in:
`top_indices = np.argsort(similarities)[-top_n:][::-1]`, then the
threshold filter. -/
def rank (simsSq : List ℚ) (top_n : ℕ) (θ : ℚ) : List ℕ :=
  rankWith (argsort simsSq) simsSq top_n θ

/-- The ranking as the specification words it: indices by descending
score, ties by ASCENDING catalog index, truncated to `top_n`, then
thresholded. -/
def specRankAsc (simsSq : List ℚ) (top_n : ℕ) (θ : ℚ) : List ℕ :=
  ((List.insertionSort
      (fun i j => simsSq.getD j 0 < simsSq.getD i 0 ∨
        (simsSq.getD i 0 = simsSq.getD j 0 ∧ i ≤ j))
      (List.range simsSq.length)).take top_n).filter
    (fun i => passes θ (simsSq.getD i 0))

/-- Follow-up prompts for network-related answers. -/
def net_follow_ups : List Str :=
  ["Have you tried resetting your router?".data,
   "What speed does your internet plan provide?".data,
   "Are other devices experiencing the same issue?".data]

/-- Follow-up prompts for software-related answers. -/
def sw_follow_ups : List Str :=
  ["When was the last system update?".data,
   "How much free disk space do you have?".data,
   "Are you running any antivirus software?".data]

/-- Follow-up prompts for hardware-related answers. -/
def hw_follow_ups : List Str :=
  ["When did you last update the drivers?".data,
   "Is the device recognized in Device Manager?".data,
   "Have you checked all physical connections?".data]

/-- Is `needle` a leading segment of `hay`? -/
def strStarts : Str → Str → Bool
  | _, [] => true
  | [], _ :: _ => false
  | c :: h, d :: n => c == d && strStarts h n

/-- Python substring test `needle in hay`. -/
def strContains (hay needle : Str) : Bool :=
  if strStarts hay needle then true
  else
    match hay with
    | [] => false
    | _ :: h => strContains h needle

/-- `_generate_tech_follow_ups` as a function of the answer text: the
dictionary it builds maps each catalog answer to the follow-up set of
the first keyword bucket whose keyword occurs in the lowercased answer
(`None` modelling absence from the dictionary). -/
def follow_ups_for (answer : Str) : Option (List Str) :=
  let a := toLowerStr answer
  if strContains a "internet".data || strContains a "wifi".data ||
      strContains a "network".data then some net_follow_ups
  else if strContains a "software".data || strContains a "program".data ||
      strContains a "update".data then some sw_follow_ups
  else if strContains a "printer".data || strContains a "hardware".data ||
      strContains a "device".data then some hw_follow_ups
  else none

/-- One element of the list `get_response` returns: in the source a
tuple `(formatted_answer, score, follow_ups)`.  `idx` records which
catalog entry the answer came from (determined by the answer lookup in
the source; carried explicitly for specification), and `score_sq` is
the squared-cosine representation of the tuple's cosine score. -/
structure Response where
  idx : ℕ
  text : Str
  score_sq : ℚ
  follow_ups : List Str
deriving DecidableEq

/-- `TechSupportChatbot.get_response`.  `r` resolves the
`np.random.choice` template draw: the chosen lead-in is the `r % k`-th
of the `k` templates of the detected tone (np.random.choice returns
some element of the nonempty list; `r` ranges over all draws). -/
def get_response (bot : Chatbot) (r : ℕ) (user_question : Str) (threshold : ℚ) (top_n : ℕ) :
    List Response :=
  let sentiment := analyze_sentiment bot user_question
  let tset := sentiment_responses sentiment
  let response_template := tset.getD (r % tset.length) []
  let processed_question := preprocess_text bot user_question
  let question_vector := transform (vocab bot) bot.idf processed_question
  let simsSq := (question_vectors bot).map (fun v => cosSq question_vector v)
  (rank simsSq top_n threshold).map (fun idx =>
    { idx := idx
      text := response_template ++ '\n' :: '\n' :: bot.answers.getD idx []
      score_sq := simsSq.getD idx 0
      follow_ups := (follow_ups_for (bot.answers.getD idx [])).getD [] })

/-- One record of `conversation_history` (`log_conversation` fields;
the timestamp is supplied by the environment). -/
structure ConversationRecord where
  timestamp : Str
  user_input : Str
  bot_response : Str
  confidence : ℚ
  sentiment : Tone
deriving DecidableEq

/-- Construction of `collections.deque(maxlen=max_history)`: Python's
deque raises `ValueError` for a negative `maxlen` and accepts any
nonnegative one, including `0` (documented library behaviour). -/
def deque_new (max_history : ℤ) : Option (List ConversationRecord) :=
  if max_history < 0 then none else some []

/-- `deque.append` on a deque with bound `maxlen`: append on the right
and evict from the left when over capacity. -/
def deque_append {α : Type} (maxlen : ℕ) (h : List α) (x : α) : List α :=
  let h' := h ++ [x]
  if maxlen < h'.length then h'.drop (h'.length - maxlen) else h'

/-- `TechSupportChatbot.log_conversation`: append one record to the
bounded history. -/
def log_conversation (maxlen : ℕ) (history : List ConversationRecord)
    (ts user_input bot_response : Str) (confidence : ℚ) (sentiment : Tone) :
    List ConversationRecord :=
  deque_append maxlen history
    { timestamp := ts
      user_input := user_input
      bot_response := bot_response
      confidence := confidence
      sentiment := sentiment }

/-- A chatbot whose external components are the simplest faithful
instances (whitespace tokenizer, identity lemmatizer, constant
polarity), with catalog `["the internet"]` and stop word `"the"`:
the raw question carries the stop word into the vocabulary. -/
def cexBot1 : Chatbot :=
  { word_tokenize := pySplit
    stop_words := ["the".data]
    lemmatize := fun t => t
    polarity := fun _ => 0
    questions := ["the internet".data]
    answers := ["A0".data]
    idf := fun _ => 1 }

/-- A chatbot with catalog `["is is internet", "internet"]` and stop
word `"is"`: preprocessing strips the stop words from a live query, but
the stored vector of question 0 keeps them. -/
def cexBot2 : Chatbot :=
  { word_tokenize := pySplit
    stop_words := ["is".data]
    lemmatize := fun t => t
    polarity := fun _ => 0
    questions := ["is is internet".data, "internet".data]
    answers := ["A0".data, "A1".data]
    idf := fun _ => 1 }

/-- The query vector `get_response` computes for the text of catalog
question 0 of `cexBot2`. -/
def cexQv2 : List ℚ :=
  transform (vocab cexBot2) cexBot2.idf
    (preprocess_text cexBot2 (cexBot2.questions.getD 0 []))

/-- A chatbot whose two catalog questions have the same token multiset,
so every query is equally similar to both entries. -/
def cexBot3 : Chatbot :=
  { word_tokenize := pySplit
    stop_words := []
    lemmatize := fun t => t
    polarity := fun _ => 0
    questions := ["internet wifi".data, "wifi internet".data]
    answers := ["A0".data, "A1".data]
    idf := fun _ => 1 }

/-- The similarity list `get_response` computes inside a call with the
query `"wifi"` against `cexBot3`: both entries score equally. -/
def sims_tie : List ℚ :=
  (question_vectors cexBot3).map
    (fun v =>
      cosSq (transform (vocab cexBot3) cexBot3.idf (preprocess_text cexBot3 ("wifi".data))) v)

/-- A chatbot with stop words `the`, `a`, `an`, against which the query
`"the a an"` normalizes to the empty string. -/
def cexBot4 : Chatbot :=
  { word_tokenize := pySplit
    stop_words := ["the".data, "a".data, "an".data]
    lemmatize := fun t => t
    polarity := fun _ => 0
    questions := ["internet".data]
    answers := ["A0".data]
    idf := fun _ => 1 }

/-- A chatbot whose single catalog question `"is"` normalizes to the
empty string under its stop-word list, while the raw question still
provides the vectorizer token `is`. -/
def cexBot6 : Chatbot :=
  { word_tokenize := pySplit
    stop_words := ["is".data]
    lemmatize := fun t => t
    polarity := fun _ => 0
    questions := ["is".data]
    answers := ["A0".data]
    idf := fun _ => 1 }

/-- A chatbot whose polarity heuristic returns the constant `p`, for
exercising the sentiment boundaries. -/
def constBot (p : ℚ) : Chatbot :=
  { word_tokenize := pySplit
    stop_words := []
    lemmatize := fun t => t
    polarity := fun _ => p
    questions := ["internet".data]
    answers := ["A0".data]
    idf := fun _ => 1 }

/-- The lead-in template a `get_response` call with random draw `r`
selects before iterating over candidates (line 328 of the source). -/
def chosen_template (bot : Chatbot) (r : ℕ) (q : Str) : Str :=
  let tset := sentiment_responses (analyze_sentiment bot q)
  tset.getD (r % tset.length) []

/-- A chatbot instantiating the external-component interface with
concrete members satisfying the normalization interface assumptions:
the whitespace tokenizer and a lemmatizer with a fixed lowercase
alphanumeric image. -/
def wbot : Chatbot :=
  { word_tokenize := pySplit
    stop_words := []
    lemmatize := fun _ => "x".data
    polarity := fun _ => 0
    questions := ["internet".data]
    answers := ["A0".data]
    idf := fun _ => 1 }

theorem normSq_nonneg (u : List ℚ) : 0 ≤ normSq u := by
  induction u with
  | nil => simp [normSq, dot]
  | cons a u ih =>
    have h : normSq (a :: u) = a * a + normSq u := by
      simp [normSq, dot]
    rw [h]
    exact add_nonneg (mul_self_nonneg a) ih

theorem cosSq_nonneg (u v : List ℚ) : 0 ≤ cosSq u v := by
  rw [cosSq]
  exact div_nonneg (sq_nonneg _) (mul_nonneg (normSq_nonneg u) (normSq_nonneg v))

theorem dot_eq_zero_left (u v : List ℚ) (h : ∀ x ∈ u, x = 0) : dot u v = 0 := by
  induction u generalizing v with
  | nil => simp [dot]
  | cons a u ih =>
    cases v with
    | nil => simp [dot]
    | cons b v =>
      have ha : a = 0 := h a (by simp)
      have hu := ih v (fun x hx => h x (List.mem_cons_of_mem _ hx))
      simp only [dot, List.zipWith_cons_cons, List.sum_cons] at hu ⊢
      rw [ha, hu, zero_mul, add_zero]

theorem getD_zero_of_all_zero (l : List ℚ) (h : ∀ x ∈ l, x = 0) (i : ℕ) :
    l.getD i 0 = 0 := by
  rcases lt_or_le i l.length with hi | hi
  · rw [List.getD_eq_getElem _ _ hi]
    exact h _ (List.getElem_mem hi)
  · exact List.getD_eq_default _ _ hi

/-- The squared-cosine representation agrees with the real cosine: for
vectors with a nonnegative inner product (all tf-idf vectors), the
source's cosine score is the square root of `cosSq`. -/
theorem cosineSim_eq_sqrt_cosSq (u v : List ℚ) (h : 0 ≤ dot u v) :
    cosineSim u v = Real.sqrt (cosSq u v) := by
  have hu := normSq_nonneg u
  have hv := normSq_nonneg v
  rw [cosineSim, cosSq]
  push_cast
  rw [Real.sqrt_div (by positivity) _,
      Real.sqrt_sq (by exact_mod_cast h),
      Real.sqrt_mul (by exact_mod_cast hu)]

/-- The Boolean threshold test on the squared representation is
exactly the source's `score >= threshold` on the real cosine. -/
theorem passes_iff (θ : ℚ) (u v : List ℚ) (h : 0 ≤ dot u v) :
    passes θ (cosSq u v) = true ↔ (θ : ℝ) ≤ cosineSim u v := by
  rw [cosineSim_eq_sqrt_cosSq u v h, passes]
  have hc : (0 : ℝ) ≤ ((cosSq u v : ℚ) : ℝ) := by exact_mod_cast cosSq_nonneg u v
  simp only [Bool.or_eq_true, decide_eq_true_eq]
  constructor
  · rintro (h0 | hsq)
    · have h0' : (θ : ℝ) ≤ 0 := by exact_mod_cast h0
      exact h0'.trans (Real.sqrt_nonneg _)
    · have habs : (θ : ℝ) ≤ Real.sqrt ((θ : ℝ) ^ 2) := by
        rw [Real.sqrt_sq_eq_abs]
        exact le_abs_self _
      refine habs.trans (Real.sqrt_le_sqrt ?_)
      exact_mod_cast hsq
  · intro hle
    by_cases h0 : θ ≤ 0
    · exact Or.inl h0
    · push_neg at h0
      right
      have := (Real.le_sqrt (by exact_mod_cast h0.le) hc).1 hle
      exact_mod_cast this

/-- C5 (confirmed): `analyze_sentiment` buckets the polarity score
with the fixed boundaries: `p ≤ -1/2` gives very_negative,
`-1/2 < p < 0` negative, `0 ≤ p ≤ 3/10` neutral and `3/10 < p`
positive (so `-0.5` is very_negative, `0` and `0.3` neutral, `0.31`
positive — see the witness). -/
theorem analyze_sentiment_boundaries (bot : Chatbot) (text : Str) :
    (bot.polarity text ≤ -(1/2) → analyze_sentiment bot text = Tone.very_negative) ∧
    (-(1/2) < bot.polarity text → bot.polarity text < 0 →
      analyze_sentiment bot text = Tone.negative) ∧
    (0 ≤ bot.polarity text → bot.polarity text ≤ 3/10 →
      analyze_sentiment bot text = Tone.neutral) ∧
    (3/10 < bot.polarity text → analyze_sentiment bot text = Tone.positive) := by
  simp only [analyze_sentiment]
  refine ⟨fun h => ?_, fun h1 h2 => ?_, fun h1 h2 => ?_, fun h => ?_⟩
  · rw [if_pos h]
  · rw [if_neg (by linarith), if_pos h2]
  · rw [if_neg (by linarith), if_neg (by linarith), if_pos h2]
  · rw [if_neg (by linarith), if_neg (by linarith), if_neg (by linarith)]

theorem analyze_sentiment_boundaries_witness :
    analyze_sentiment (constBot (-(1/2))) [] = Tone.very_negative ∧
    analyze_sentiment (constBot 0) [] = Tone.neutral ∧
    analyze_sentiment (constBot (3/10)) [] = Tone.neutral ∧
    analyze_sentiment (constBot (31/100)) [] = Tone.positive :=
  ⟨(analyze_sentiment_boundaries (constBot (-(1/2))) []).1 (by norm_num [constBot]),
   (analyze_sentiment_boundaries (constBot 0) []).2.2.1
     (by norm_num [constBot]) (by norm_num [constBot]),
   (analyze_sentiment_boundaries (constBot (3/10)) []).2.2.1
     (by norm_num [constBot]) (by norm_num [constBot]),
   (analyze_sentiment_boundaries (constBot (31/100)) []).2.2.2 (by norm_num [constBot])⟩

/-- C9 (counterexample): constructing the history with
`max_history = 0` SUCCEEDS — Python's `deque(maxlen=0)` is legal — so
"fails for every max_history ≤ 0" is false at `max_history = 0`. -/
theorem deque_new_zero_succeeds : (0 : ℤ) ≤ 0 ∧ deque_new 0 ≠ none := by
  refine ⟨le_refl 0, ?_⟩
  simp [deque_new]

/-- C9 (amended): history construction fails exactly for a NEGATIVE
capacity (deque raises ValueError); every nonnegative capacity,
including `0`, succeeds. -/
theorem deque_new_none_iff (max_history : ℤ) :
    deque_new max_history = none ↔ max_history < 0 := by
  rw [deque_new]
  split_ifs with h <;> simp [h]

/-- C6 (counterexample): every catalog question of `cexBot6`
normalizes to the empty string under `preprocess_text`, yet
construction SUCCEEDS, because the vectorizer derives its vocabulary
from the raw (unnormalized) questions. -/
theorem fit_succeeds_on_all_stop_catalog :
    (∀ q ∈ cexBot6.questions, preprocess_text cexBot6 q = []) ∧
    fit cexBot6.questions ≠ none :=
  ⟨by decide, by decide⟩

/-- C6 (amended): construction fails exactly when the analyzer
extracts no token from any raw question — in particular for the empty
catalog; a catalog whose questions merely normalize to empty token
sets under `preprocess_text` does NOT fail (and the failure is the
vectorizer's ValueError, not a dedicated EmptyCatalogError). -/
theorem fit_none_iff (questions : List Str) :
    fit questions = none ↔ (questions.map sk_tokenize).flatten = [] := by
  simp only [fit, List.isEmpty_iff]
  split_ifs with h
  · rw [List.dedup_eq_nil] at h
    simp [h]
  · rw [List.dedup_eq_nil] at h
    simp [h]

/-- Folding `deque.append` with bound `m` over any record sequence
keeps exactly the last `m` elements, in order. -/
theorem foldl_deque_append {α : Type} (m : ℕ) (hm : 0 < m) (xs : List α) :
    List.foldl (deque_append m) [] xs = xs.drop (xs.length - m) := by
  induction xs using List.reverseRecOn with
  | nil => simp
  | append_singleton xs x ih =>
    rw [List.foldl_append, List.foldl_cons, List.foldl_nil, ih, deque_append]
    rcases le_or_lt m xs.length with h | h
    · have hlen : (xs.drop (xs.length - m)).length = m := by
        rw [List.length_drop]
        omega
      have hcap : m < (xs.drop (xs.length - m) ++ [x]).length := by
        rw [List.length_append, hlen]
        simp
      rw [if_pos hcap]
      have hone : (xs.drop (xs.length - m) ++ [x]).length - m = 1 := by
        rw [List.length_append, hlen]
        simp
      rw [hone,
          List.drop_append_of_le_length (by omega : 1 ≤ (xs.drop (xs.length - m)).length),
          List.drop_drop]
      have hlen2 : (xs ++ [x]).length - m = xs.length + 1 - m := by
        simp [List.length_append]
      rw [hlen2,
          List.drop_append_of_le_length (by omega : xs.length + 1 - m ≤ xs.length)]
      congr 2
      omega
    · have h0 : xs.length - m = 0 := by omega
      rw [h0, List.drop_zero]
      have hcap : ¬ m < (xs ++ [x]).length := by
        rw [List.length_append]
        simp only [List.length_cons, List.length_nil]
        omega
      rw [if_neg hcap]
      have h1 : (xs ++ [x]).length - m = 0 := by
        rw [List.length_append]
        simp only [List.length_cons, List.length_nil]
        omega
      rw [h1, List.drop_zero]

/-- C8 (confirmed): the conversation log is a bounded FIFO buffer:
appending `max_history + k` records (`k ≥ 1`) to the empty history
leaves exactly `max_history` records — the `k` oldest evicted, the
survivors unmodified, iterated oldest-first. -/
theorem conversation_history_fifo (m k : ℕ) (recs : List ConversationRecord)
    (hm : 0 < m) (hk : 1 ≤ k) (hlen : recs.length = m + k) :
    List.foldl (deque_append m) [] recs = recs.drop k ∧
    (List.foldl (deque_append m) [] recs).length = m := by
  have h := foldl_deque_append m hm recs
  constructor
  · rw [h, hlen]
    congr 1
    omega
  · rw [h, List.length_drop, hlen]
    omega

theorem conversation_history_fifo_witness :
    List.foldl (deque_append 1) []
        [(⟨"t1".data, "u1".data, "b1".data, 0, Tone.neutral⟩ : ConversationRecord),
         ⟨"t2".data, "u2".data, "b2".data, 0, Tone.neutral⟩] =
      [(⟨"t2".data, "u2".data, "b2".data, 0, Tone.neutral⟩ : ConversationRecord)] :=
  (conversation_history_fifo 1 1
      [⟨"t1".data, "u1".data, "b1".data, 0, Tone.neutral⟩,
       ⟨"t2".data, "u2".data, "b2".data, 0, Tone.neutral⟩]
      (by decide) (by decide) (by decide)).1

/-- C10 (confirmed): one lead-in template is selected per
`get_response` call, before candidates are iterated, from the template
set of the detected tone; every returned response is that same
template, two newlines, then the candidate's catalog answer — distinct
candidates of one call never carry different lead-ins. -/
theorem get_response_single_template (bot : Chatbot) (r : ℕ) (q : Str) (θ : ℚ) (n : ℕ) :
    chosen_template bot r q ∈ sentiment_responses (analyze_sentiment bot q) ∧
    ∀ resp ∈ get_response bot r q θ n,
      resp.text = chosen_template bot r q ++ '\n' :: '\n' :: bot.answers.getD resp.idx [] := by
  constructor
  · have hlen : 0 < (sentiment_responses (analyze_sentiment bot q)).length := by
      cases analyze_sentiment bot q <;> simp [sentiment_responses]
    rw [chosen_template]
    have hmod := Nat.mod_lt r hlen
    rw [List.getD_eq_getElem _ _ hmod]
    exact List.getElem_mem hmod
  · intro resp hresp
    simp only [get_response, List.mem_map] at hresp
    obtain ⟨i, hi, rfl⟩ := hresp
    rfl

instance lexAscTotal (xs : List ℚ) : IsTotal ℕ (lexAsc xs) :=
  ⟨fun i j => by
    rcases lt_trichotomy (xs.getD i 0) (xs.getD j 0) with h | h | h
    · exact Or.inl (Or.inl h)
    · rcases Nat.le_total i j with hij | hij
      · exact Or.inl (Or.inr ⟨h, hij⟩)
      · exact Or.inr (Or.inr ⟨h.symm, hij⟩)
    · exact Or.inr (Or.inl h)⟩

instance lexAscTrans (xs : List ℚ) : IsTrans ℕ (lexAsc xs) :=
  ⟨by
    rintro i j k (h | ⟨he, hle⟩) (h' | ⟨he', hle'⟩)
    · exact Or.inl (h.trans h')
    · exact Or.inl (h.trans_eq he')
    · exact Or.inl (he.trans_lt h')
    · exact Or.inr ⟨he.trans he', hle.trans hle'⟩⟩

/-- The executable `argsort` is a permutation of all positions: half
of np.argsort's documented contract. -/
theorem argsort_perm (xs : List ℚ) : (argsort xs).Perm (List.range xs.length) :=
  List.perm_insertionSort _ _

/-- The executable `argsort` lists positions in ascending score order:
the other half of np.argsort's documented contract (the contract says
nothing about the order of tied scores). -/
theorem argsort_sorted_le (xs : List ℚ) :
    (argsort xs).Pairwise (fun i j => xs.getD i 0 ≤ xs.getD j 0) := by
  have h : (argsort xs).Pairwise (lexAsc xs) :=
    List.sorted_insertionSort (lexAsc xs) (List.range xs.length)
  refine List.Pairwise.imp ?_ h
  intro i j hij
  rcases hij with hlt | ⟨heq, -⟩
  · exact hlt.le
  · exact heq.le

/-- C3 (amended): for every similarity list, every `top_n ≥ 1`, every
threshold, and EVERY index order `A` satisfying np.argsort's contract
(a permutation of all catalog indices along which scores ascend — the
relative order of tied scores is unspecified, numpy's default sort
being unstable), the ranking step selects `min top_n n` distinct
catalog entries, each scoring at least as high as every unselected
entry, emits them in descending score order, and keeps exactly those
of the selected entries whose score passes the threshold, returning
the empty sequence (not raising) when none qualify.  (For `top_n = 0`
the Python slice `[-0:]` keeps the whole list, hence the hypothesis;
and the tie order is NOT ascending catalog index as claimed — see the
counterexample.) -/
theorem rank_selects_top (simsSq : List ℚ) (top_n : ℕ) (θ : ℚ) (A : List ℕ)
    (htop : 1 ≤ top_n)
    (hperm : A.Perm (List.range simsSq.length))
    (hsorted : A.Pairwise (fun i j => simsSq.getD i 0 ≤ simsSq.getD j 0)) :
    ∃ sel : List ℕ,
      rankWith A simsSq top_n θ = sel.filter (fun i => passes θ (simsSq.getD i 0)) ∧
      sel.length = min top_n simsSq.length ∧
      sel.Nodup ∧
      (∀ i ∈ sel, i < simsSq.length) ∧
      sel.Pairwise (fun i j => simsSq.getD j 0 ≤ simsSq.getD i 0) ∧
      (∀ i ∈ sel, ∀ j < simsSq.length, j ∉ sel → simsSq.getD j 0 ≤ simsSq.getD i 0) ∧
      ((∀ i < simsSq.length, passes θ (simsSq.getD i 0) = false) →
        rankWith A simsSq top_n θ = []) := by
  have hlenA : A.length = simsSq.length := by
    rw [hperm.length_eq, List.length_range]
  have hnodupA : A.Nodup := hperm.nodup_iff.mpr (List.nodup_range _)
  have hmemA : ∀ i, i ∈ A ↔ i < simsSq.length := fun i => by
    rw [hperm.mem_iff, List.mem_range]
  have heq : rankWith A simsSq top_n θ =
      ((A.drop (A.length - top_n)).reverse).filter
        (fun i => passes θ (simsSq.getD i 0)) := by
    rw [rankWith, lastN, if_neg (by omega : ¬ top_n = 0)]
  have hmemsel : ∀ i ∈ (A.drop (A.length - top_n)).reverse, i < simsSq.length := by
    intro i hi
    rw [List.mem_reverse] at hi
    exact (hmemA i).1 (List.mem_of_mem_drop hi)
  refine ⟨(A.drop (A.length - top_n)).reverse, heq, ?_, ?_, hmemsel, ?_, ?_, ?_⟩
  · rw [List.length_reverse, List.length_drop]
    omega
  · rw [List.nodup_reverse]
    exact hnodupA.sublist (List.drop_sublist _ _)
  · rw [List.pairwise_reverse]
    exact List.Pairwise.drop hsorted
  · intro i hi j hj hjnot
    rw [List.mem_reverse] at hi
    have hjA : j ∈ A := (hmemA j).2 hj
    have hjdrop : j ∉ A.drop (A.length - top_n) := fun hmem =>
      hjnot (List.mem_reverse.mpr hmem)
    have hA : A.take (A.length - top_n) ++ A.drop (A.length - top_n) = A :=
      List.take_append_drop _ A
    have hp : (A.take (A.length - top_n) ++ A.drop (A.length - top_n)).Pairwise
        (fun i j => simsSq.getD i 0 ≤ simsSq.getD j 0) := by
      rw [hA]
      exact hsorted
    rw [List.pairwise_append] at hp
    have hjtake : j ∈ A.take (A.length - top_n) := by
      have hj2 : j ∈ A.take (A.length - top_n) ++ A.drop (A.length - top_n) := by
        rw [hA]
        exact hjA
      rcases List.mem_append.1 hj2 with h | h
      · exact h
      · exact absurd h hjdrop
    exact hp.2.2 j hjtake i hi
  · intro hnone
    rw [heq, List.filter_eq_nil_iff]
    intro i hi
    rw [hnone i (hmemsel i hi)]
    simp

theorem rank_selects_top_witness :
    1 ≤ 3 ∧
    (∃ sel : List ℕ,
      rankWith (argsort sims_tie) sims_tie 3 (3/10) =
        sel.filter (fun i => passes (3/10) (sims_tie.getD i 0)) ∧
      sel.length = min 3 sims_tie.length ∧
      sel.Nodup ∧
      (∀ i ∈ sel, i < sims_tie.length) ∧
      sel.Pairwise (fun i j => sims_tie.getD j 0 ≤ sims_tie.getD i 0) ∧
      (∀ i ∈ sel, ∀ j < sims_tie.length, j ∉ sel →
        sims_tie.getD j 0 ≤ sims_tie.getD i 0) ∧
      ((∀ i < sims_tie.length, passes (3/10) (sims_tie.getD i 0) = false) →
        rankWith (argsort sims_tie) sims_tie 3 (3/10) = [])) :=
  ⟨by decide,
   rank_selects_top sims_tie 3 (3/10) (argsort sims_tie) (by decide)
     (argsort_perm sims_tie) (argsort_sorted_le sims_tie)⟩

/-- C3 (counterexample): on the two equal-scored entries of `cexBot3`
(query `"wifi"`), the code emits the candidates as `[1, 0]` — ties in
DESCENDING index order here — while the claim's ranking (ties
ascending) would emit `[0, 1]`: the claim as stated is false.  (At
this size, 2 entries, numpy's introsort is its stable insertion sort,
so the executable `argsort` agrees with the real np.argsort on this
input.) -/
theorem rank_tie_order_cex :
    rank sims_tie 3 (3/10) = [1, 0] ∧ specRankAsc sims_tie 3 (3/10) = [0, 1] := by
  constructor
  · with_unfolding_all decide
  · with_unfolding_all decide

/-- C1 (code_bug): the source fits the vectorizer on the RAW catalog
questions (`fit_transform(self.questions)`) but preprocesses live
queries, so the stored vector of a catalog question differs from the
vector of its normalized form: for `cexBot1`, question 0 is
`"the internet"`, whose stored (L2-normalized) vector keeps the stop
word `the`, while the identically-normalized pipeline would zero it. -/
theorem build_vs_query_pipeline_diverge :
    l2normalize ((question_vectors cexBot1).getD 0 []) ≠
      l2normalize (transform (vocab cexBot1) cexBot1.idf
        (preprocess_text cexBot1 (cexBot1.questions.getD 0 []))) := by
  have h1 : (question_vectors cexBot1).getD 0 [] = [1, 1] := by
    with_unfolding_all decide
  have h2 :
      transform (vocab cexBot1) cexBot1.idf
        (preprocess_text cexBot1 (cexBot1.questions.getD 0 [])) = [0, 1] := by
    with_unfolding_all decide
  rw [h1, h2]
  have hn1 : normSq [(1 : ℚ), 1] = 2 := by with_unfolding_all decide
  have hn2 : normSq [(0 : ℚ), 1] = 1 := by with_unfolding_all decide
  intro heq
  have hhead :
      ((1 : ℚ) : ℝ) / Real.sqrt ((normSq [(1 : ℚ), 1] : ℚ)) =
        ((0 : ℚ) : ℝ) / Real.sqrt ((normSq [(0 : ℚ), 1] : ℚ)) := by
    have := congrArg (fun l => l.getD 0 0) heq
    simpa [l2normalize] using this
  rw [hn1, hn2] at hhead
  push_cast at hhead
  rw [zero_div] at hhead
  have hpos : (0 : ℝ) < 1 / Real.sqrt 2 := by
    have h2p : (0 : ℝ) < Real.sqrt 2 := Real.sqrt_pos.mpr (by norm_num)
    positivity
  rw [hhead] at hpos
  exact lt_irrefl 0 hpos

/-- C2 (code_bug): querying the exact text of catalog question 0 of
`cexBot2` returns entry 1's answer first, not entry 0's, and entry 0's
own similarity is below 0.99 — the build/query pipeline divergence
breaks self-similarity. -/
theorem self_query_not_self_top :
    (get_response cexBot2 0 (cexBot2.questions.getD 0 []) (3/10) 3).map Response.idx
        = [1, 0] ∧
    cexBot2.answers.getD 1 [] ≠ cexBot2.answers.getD 0 [] ∧
    cosineSim cexQv2 ((question_vectors cexBot2).getD 0 []) < 99/100 := by
  refine ⟨by with_unfolding_all decide, by decide, ?_⟩
  have hq : cexQv2 = [0, 1] := by with_unfolding_all decide
  have hv : (question_vectors cexBot2).getD 0 [] = [2, 1] := by with_unfolding_all decide
  have hd : dot [(0 : ℚ), 1] [2, 1] = 1 := by with_unfolding_all decide
  have hn1 : normSq [(0 : ℚ), 1] = 1 := by with_unfolding_all decide
  have hn2 : normSq [(2 : ℚ), 1] = 5 := by with_unfolding_all decide
  rw [hq, hv, cosineSim, hd, hn1, hn2]
  push_cast
  rw [Real.sqrt_one, one_mul]
  have h4 : Real.sqrt 4 = 2 := by
    rw [show (4 : ℝ) = 2 ^ 2 by norm_num, Real.sqrt_sq (by norm_num)]
  have h5 : (2 : ℝ) < Real.sqrt 5 := by
    rw [← h4]
    exact Real.sqrt_lt_sqrt (by norm_num) (by norm_num)
  have hpos : (0 : ℝ) < Real.sqrt 5 := lt_trans (by norm_num) h5
  rw [div_lt_iff₀ hpos]
  nlinarith [h5]

/-- C4 (amended): a query whose normalized form is empty yields a
zero-magnitude query vector, cosine similarity 0 against every catalog
entry with no division error, and an empty `get_response` result for
every threshold STRICTLY greater than 0 (at threshold 0 or below the
test `score >= threshold` passes with score 0, so every entry is
returned — see the counterexample). -/
theorem empty_normalized_query (bot : Chatbot) (q : Str)
    (h : preprocess_text bot q = []) :
    normSq (transform (vocab bot) bot.idf (preprocess_text bot q)) = 0 ∧
    (∀ v ∈ question_vectors bot,
      cosineSim (transform (vocab bot) bot.idf (preprocess_text bot q)) v = 0) ∧
    (∀ θ : ℚ, 0 < θ → ∀ (top_n r : ℕ), get_response bot r q θ top_n = []) := by
  have hz : ∀ x ∈ transform (vocab bot) bot.idf [], x = 0 := by
    intro x hx
    simp only [transform, List.mem_map] at hx
    obtain ⟨j, hj, rfl⟩ := hx
    have hsk : sk_tokenize [] = [] := rfl
    rw [hsk]
    simp [tokCount]
  have hdot : ∀ v, dot (transform (vocab bot) bot.idf []) v = 0 := fun v =>
    dot_eq_zero_left _ v hz
  have hsims : ∀ x ∈ (question_vectors bot).map
      (fun v => cosSq (transform (vocab bot) bot.idf []) v), x = 0 := by
    intro x hx
    simp only [List.mem_map] at hx
    obtain ⟨v, hv, rfl⟩ := hx
    rw [cosSq, hdot v, zero_pow (by norm_num : (2:ℕ) ≠ 0), zero_div]
  refine ⟨?_, ?_, ?_⟩
  · rw [h, normSq]
    exact hdot _
  · intro v hv
    rw [h, cosineSim, hdot v]
    push_cast
    rw [zero_div]
  · intro θ hθ top_n r
    simp only [get_response, h]
    have hr : rank ((question_vectors bot).map
        (fun v => cosSq (transform (vocab bot) bot.idf []) v)) top_n θ = [] := by
      rw [rank, rankWith, List.filter_eq_nil_iff]
      intro i hi
      rw [getD_zero_of_all_zero _ hsims i]
      simp [passes, hθ.not_le, (pow_pos hθ 2).not_le]
    rw [hr]
    rfl

theorem empty_normalized_query_witness :
    preprocess_text cexBot4 ("the a an".data) = [] ∧
    (0 : ℚ) < 3/10 ∧
    get_response cexBot4 0 ("the a an".data) (3/10) 3 = [] :=
  ⟨by decide, by norm_num,
   (empty_normalized_query cexBot4 ("the a an".data) (by decide)).2.2
     (3/10) (by norm_num) 3 0⟩

/-- C4 (counterexample): the claim quantifies over EVERY threshold,
but at threshold 0 the all-stop-word query `"the a an"` (normalized
form empty, all similarities 0) makes `score >= threshold` pass for
every entry, so `get_response` returns a nonempty sequence. -/
theorem empty_query_threshold_zero_cex :
    preprocess_text cexBot4 ("the a an".data) = [] ∧
    get_response cexBot4 0 ("the a an".data) 0 3 ≠ [] := by
  refine ⟨by decide, ?_⟩
  with_unfolding_all decide

theorem runsByGo_append_run (p : Char → Bool) (tok : Str) :
    ∀ (cur rest : Str), (∀ c ∈ tok, p c = true) →
      runsByGo p cur (tok ++ rest) = runsByGo p (tok.reverse ++ cur) rest := by
  induction tok with
  | nil =>
    intro cur rest _
    simp
  | cons c tok ih =>
    intro cur rest h
    have hc : p c = true := h c (by simp)
    rw [List.cons_append, runsByGo, if_pos hc,
        ih (c :: cur) rest (fun x hx => h x (by simp [hx]))]
    congr 1
    simp

theorem runsBy_joinSp (p : Char → Bool) (hsp : p ' ' = false) :
    ∀ toks : List Str, (∀ t ∈ toks, t ≠ [] ∧ ∀ c ∈ t, p c = true) →
      runsBy p (joinSp toks) = toks := by
  intro toks
  induction toks with
  | nil => intro _; rfl
  | cons t ts ih =>
    intro h
    obtain ⟨hne, hall⟩ := h t (by simp)
    cases ts with
    | nil =>
      show runsBy p (joinSp [t]) = [t]
      have h1 : runsByGo p [] (t ++ []) = runsByGo p (t.reverse ++ []) [] :=
        runsByGo_append_run p t [] [] hall
      rw [List.append_nil, List.append_nil] at h1
      show runsByGo p [] t = [t]
      rw [h1, runsByGo, if_neg (by simp [List.isEmpty_iff, hne]), List.reverse_reverse]
    | cons t' ts' =>
      show runsBy p (t ++ ' ' :: joinSp (t' :: ts')) = t :: t' :: ts'
      rw [runsBy, runsByGo_append_run p t _ _ hall, List.append_nil, runsByGo,
          if_neg (by simp [hsp]), if_neg (by simp [List.isEmpty_iff, hne]),
          List.reverse_reverse]
      congr 1
      exact ih (fun u hu => h u (by simp [hu]))

theorem toLowerStr_joinSp : ∀ ts : List Str,
    toLowerStr (joinSp ts) = joinSp (ts.map toLowerStr) := by
  intro ts
  induction ts with
  | nil => rfl
  | cons t ts ih =>
    cases ts with
    | nil => rfl
    | cons t' ts' =>
      show toLowerStr (t ++ ' ' :: joinSp (t' :: ts')) =
        joinSp (toLowerStr t :: (t' :: ts').map toLowerStr)
      rw [toLowerStr, List.map_append, List.map_cons]
      have hsp : ' '.toLower = ' ' := by decide
      rw [hsp]
      show toLowerStr t ++ ' ' :: toLowerStr (joinSp (t' :: ts')) =
        joinSp (toLowerStr t :: (t' :: ts').map toLowerStr)
      rw [ih]
      cases ts' <;> rfl

theorem toLowerStr_joinSp_fixed (ts : List Str) (h : ∀ t ∈ ts, toLowerStr t = t) :
    toLowerStr (joinSp ts) = joinSp ts := by
  rw [toLowerStr_joinSp]
  congr 1
  have hmap : ts.map toLowerStr = ts.map id := List.map_eq_map_iff.mpr h
  rw [hmap, List.map_id]

theorem mem_of_lookup_eq_some {α β : Type} [BEq α] [LawfulBEq α]
    {l : List (α × β)} {a : α} {b : β} (h : l.lookup a = some b) : (a, b) ∈ l := by
  induction l with
  | nil => simp [List.lookup] at h
  | cons p l ih =>
    obtain ⟨k, v⟩ := p
    rw [List.lookup] at h
    cases hak : a == k with
    | false =>
      rw [hak] at h
      exact List.mem_cons_of_mem _ (ih h)
    | true =>
      rw [hak] at h
      obtain rfl : v = b := Option.some.inj h
      have hk : a = k := eq_of_beq hak
      subst hk
      exact List.mem_cons_self _ _

theorem techApply_toLower (t : Str) (h : toLowerStr t = t) :
    toLowerStr (techApply t) = t := by
  rw [techApply]
  rcases hl : tech_terms.lookup t with _ | v
  · rw [Option.getD_none]
    exact h
  · rw [Option.getD_some]
    have hmem : (t, v) ∈ tech_terms := mem_of_lookup_eq_some hl
    have hall : ∀ pr ∈ tech_terms, toLowerStr pr.2 = pr.1 := by decide
    exact hall (t, v) hmem

theorem not_whitespace_of_isAlphanum (c : Char) (h : c.isAlphanum = true) :
    c.isWhitespace = false := by
  cases hw : c.isWhitespace with
  | false => rfl
  | true =>
    exfalso
    simp only [Char.isWhitespace, Bool.or_eq_true, decide_eq_true_eq] at hw
    rcases hw with ((rfl | rfl) | rfl) | rfl <;> exact absurd h (by decide)

theorem isalnum_ne_nil {t : Str} (h : isalnum t = true) : t ≠ [] := by
  intro hnil
  subst hnil
  simp [isalnum] at h

theorem isalnum_chars {t : Str} (h : isalnum t = true) :
    ∀ c ∈ t, c.isAlphanum = true := by
  rw [isalnum, Bool.and_eq_true] at h
  intro c hc
  rw [List.all_eq_true] at h
  exact h.2 c hc

/-- A text that is a space-join of tokens that are non-stop-word,
alphanumeric, lowercase-fixed and lemmatizer-fixed is a fixed point of
`preprocess_text`. -/
theorem preprocess_text_fixed (bot : Chatbot)
    (Htok : ∀ toks : List Str,
      (∀ t ∈ toks, t ≠ [] ∧ ∀ c ∈ t, (!c.isWhitespace) = true) →
      bot.word_tokenize (joinSp toks) = toks)
    (toks2 : List Str)
    (F : ∀ u ∈ toks2, bot.stop_words.contains u = false ∧ isalnum u = true ∧
      toLowerStr u = u ∧ bot.lemmatize u = u) :
    preprocess_text bot (joinSp toks2) = joinSp toks2 := by
  have hgood : ∀ t ∈ toks2, t ≠ [] ∧ ∀ c ∈ t, ((!c.isWhitespace) = true) := by
    intro t ht
    obtain ⟨-, halnum, -, -⟩ := F t ht
    refine ⟨isalnum_ne_nil halnum, fun c hc => ?_⟩
    rw [not_whitespace_of_isAlphanum c (isalnum_chars halnum c hc)]
    rfl
  have hlowfix : ∀ t ∈ toks2, toLowerStr t = t := fun t ht => (F t ht).2.2.1
  have h1 : toLowerStr (joinSp toks2) = joinSp toks2 :=
    toLowerStr_joinSp_fixed toks2 hlowfix
  have h2 : pySplit (joinSp toks2) = toks2 :=
    runsBy_joinSp _ (by decide) toks2 hgood
  have h3 : toLowerStr (joinSp (toks2.map techApply)) = joinSp toks2 := by
    rw [toLowerStr_joinSp]
    congr 1
    rw [List.map_map]
    have hcongr : ∀ t ∈ toks2, (toLowerStr ∘ techApply) t = id t := fun t ht =>
      techApply_toLower t (hlowfix t ht)
    rw [List.map_eq_map_iff.mpr hcongr, List.map_id]
  have h4 : bot.word_tokenize (joinSp toks2) = toks2 := Htok toks2 hgood
  have h5 : toks2.filter (fun t => !(bot.stop_words.contains t) && isalnum t) = toks2 := by
    rw [List.filter_eq_self]
    intro u hu
    obtain ⟨hstop, halnum, -, -⟩ := F u hu
    rw [hstop, halnum]
    rfl
  have h6 : toks2.map bot.lemmatize = toks2 := by
    have hcongr : ∀ t ∈ toks2, bot.lemmatize t = id t := fun t ht => (F t ht).2.2.2
    rw [List.map_eq_map_iff.mpr hcongr, List.map_id]
  show joinSp
      (((bot.word_tokenize (toLowerStr (joinSp ((pySplit (toLowerStr (joinSp toks2))).map
        techApply)))).filter (fun t => !(bot.stop_words.contains t) && isalnum t)).map
        bot.lemmatize) = joinSp toks2
  rw [h1, h2, h3, h4, h5, h6]

/-- C7 (confirmed): `preprocess_text` is idempotent, under the
interface assumptions on the external nltk components the source
relies on: the tokenizer maps a space-join of whitespace-free nonempty
tokens back to those tokens, and the lemma of a kept (non-stop-word,
alphanumeric) token is itself a non-stop-word, alphanumeric,
lowercase, lemmatizer-fixed token. -/
theorem preprocess_text_idempotent (bot : Chatbot)
    (Htok : ∀ toks : List Str,
      (∀ t ∈ toks, t ≠ [] ∧ ∀ c ∈ t, (!c.isWhitespace) = true) →
      bot.word_tokenize (joinSp toks) = toks)
    (Hlem : ∀ t : Str, bot.stop_words.contains t = false → isalnum t = true →
      bot.stop_words.contains (bot.lemmatize t) = false ∧
      isalnum (bot.lemmatize t) = true ∧
      toLowerStr (bot.lemmatize t) = bot.lemmatize t ∧
      bot.lemmatize (bot.lemmatize t) = bot.lemmatize t)
    (text : Str) :
    preprocess_text bot (preprocess_text bot text) = preprocess_text bot text := by
  have hrep : preprocess_text bot text = joinSp
      (((bot.word_tokenize (toLowerStr (joinSp ((pySplit (toLowerStr text)).map
        techApply)))).filter (fun t => !(bot.stop_words.contains t) && isalnum t)).map
        bot.lemmatize) := rfl
  rw [hrep]
  apply preprocess_text_fixed bot Htok
  intro u hu
  simp only [List.mem_map] at hu
  obtain ⟨t, ht, rfl⟩ := hu
  rw [List.mem_filter] at ht
  obtain ⟨-, hcond⟩ := ht
  rw [Bool.and_eq_true, Bool.not_eq_true'] at hcond
  exact Hlem t hcond.1 hcond.2

theorem preprocess_text_idempotent_witness :
    preprocess_text wbot (preprocess_text wbot ("The WiFi IS slow".data)) =
      preprocess_text wbot ("The WiFi IS slow".data) :=
  preprocess_text_idempotent wbot
    (fun toks h => runsBy_joinSp _ (by decide) toks h)
    (by
      intro t h1 h2
      refine ⟨rfl, ?_, ?_, rfl⟩
      · show isalnum ("x".data) = true
        decide
      · show toLowerStr ("x".data) = "x".data
        decide)
    ("The WiFi IS slow".data)
